import Mathlib

/-!
Shallow embedding of `kitchen/ingredients.py` (single-cell RNA-seq convenience
wrappers over an external scientific-computing library), together with proofs
about its pure content: the CellRanger-2 knee-point thresholding, the
`.obs`-column subsetting, cell-cycle-score bookkeeping, the order of delegated
dimension-reduction calls, the directory-creation guard, and the two grid
layout computations.

Modelling conventions:
* A pandas dataframe cell is an `OVal` (numeric or string); dataframes and
  dictionaries (`.obs`, `.layers`, `.uns`) are association lists on `String`
  keys; the counts matrix `.X` is a list of rows of rationals.
* Machine floats are modelled by `ℚ` (the numeric computations at stake are
  exact order/quantile/threshold arithmetic).
* Python in-place mutation is explicit state passing; a Python exception that
  escapes a function is an `Except`-error carrying the state at the raise
  point, since the caller's object keeps the mutations made before the raise.
* Calls into the external library (`scanpy`, `os`) are either recorded as
  trace events or taken as parameters, as documented on each definition.
-/

set_option autoImplicit false

namespace Kitchen

/-- A value stored in one cell of a pandas dataframe column: numeric or string. -/
inductive OVal where
  | num (q : ℚ)
  | str (s : String)
deriving DecidableEq

/-- String-keyed association list: the model of dataframes and dict-like
AnnData attributes. -/
abbrev AList (β : Type) := List (String × β)

/-- Lookup of a key (pandas/dict `[]` read access). -/
def alookup {β : Type} : AList β → String → Option β
  | [], _ => none
  | p :: rest, k => if p.1 = k then some p.2 else alookup rest k

/-- Write a key (pandas/dict `[]=`): replace the value of an existing key in
place, otherwise append the new column at the end. -/
def aset {β : Type} : AList β → String → β → AList β
  | [], k, v => [(k, v)]
  | p :: rest, k, v => if p.1 = k then (k, v) :: rest else p :: aset rest k v

/-- Remove a key (pandas `drop(columns=...)` / Python `del`). -/
def adrop {β : Type} : AList β → String → AList β
  | [], _ => []
  | p :: rest, k => if p.1 = k then adrop rest k else p :: adrop rest k

/-- Dataframe model: named columns of cell values. -/
abbrev Obs := AList (List OVal)

/-- Model of `.layers`: named matrices. -/
abbrev Layers := AList (List (List ℚ))

/-- The slice of an `anndata.AnnData` object that `ingredients.py` touches. -/
structure AnnData where
  X : List (List ℚ)
  obs : Obs
  layers : Layers
  uns : AList ℚ
  var_names : List String
deriving DecidableEq

/-- Number of observations (cells): rows of `.X`. -/
def AnnData.n_obs (a : AnnData) : ℕ := a.X.length

/-- Number of variables (genes): entries of `.var_names`. -/
def AnnData.n_vars (a : AnnData) : ℕ := a.var_names.length

/-! ### Grid layout arithmetic (`plot_embedding`, `rank_genes_cnmf`) -/

/-- Computes `math.ceil(a / b)` on nonnegative integers, via exact rational division. -/
def pyCeil (a b : ℕ) : ℕ := (Int.ceil ((a : ℚ) / (b : ℚ))).toNat

/-- Embeds the grid-shape arithmetic of `plot_embedding`
(`ingredients.py` lines 424-428): `n_plots` overlays into `ncols` requested
columns give `(n_rows, n_cols)`. -/
def plot_embedding_grid (n_plots ncols : ℕ) : ℕ × ℕ :=
  if n_plots ≤ ncols then (1, n_plots) else (pyCeil n_plots ncols, ncols)

/-- Embeds the grid-shape arithmetic of `rank_genes_cnmf`
(`ingredients.py` lines 527-530): `n_panels` panels give `(n_rows, n_cols)`. -/
def rank_genes_cnmf_grid (n_panels : ℕ) : ℕ × ℕ :=
  if n_panels ≤ 5 then (1, n_panels) else (pyCeil n_panels 4, 4)

/-! ### Knee-point labelling (`cellranger2`) -/

/-- Computes `adata.X.sum(axis=1)`: per-cell row sums of the counts matrix. -/
def rowSums (X : List (List ℚ)) : List ℚ := X.map (fun r => r.sum)

/-- Insert into an ascending-sorted list. -/
def insertAsc (x : ℚ) : List ℚ → List ℚ
  | [] => [x]
  | y :: ys => if x ≤ y then x :: y :: ys else y :: insertAsc x ys

/-- Ascending insertion sort: model of `np.sort` on a 1-d array. -/
def sortAsc : List ℚ → List ℚ
  | [] => []
  | x :: xs => insertAsc x (sortAsc xs)

/-- Computes `np.sort(xs)[::-1]`: the values in descending order. -/
def sortDesc (xs : List ℚ) : List ℚ := (sortAsc xs).reverse

/-- Computes `np.quantile(xs, q)` with numpy's default linear-interpolation method: on
the ascending sort `s` (length `n`) of `xs`, with `h = q * (n - 1)` and
`i = ⌊h⌋`, the result is `s[i] + (h - i) * (s[i+1] - s[i])`; `none` on an
empty input, where numpy raises. -/
def npQuantile (xs : List ℚ) (q : ℚ) : Option ℚ :=
  match sortAsc xs with
  | [] => none
  | a :: rest =>
    let s := a :: rest
    let h : ℚ := q * ((s.length : ℚ) - 1)
    let i : ℕ := (Int.floor h).toNat
    let lo := s.getD i 0
    let hi := s.getD (i + 1) lo
    some (lo + (h - (i : ℚ)) * (hi - lo))

/-- Read one dataframe cell as a number (`np.array` over a numeric column);
`none` on a string cell, where the numeric operations would fail. -/
def numCells : List OVal → Option (List ℚ)
  | [] => some []
  | .num q :: rest => (numCells rest).map (fun qs => q :: qs)
  | .str _ :: _ => none

/-- Read a whole dataframe column as numbers; `none` if the column is absent
or holds a non-numeric cell. -/
def numCol (obs : Obs) (k : String) : Option (List ℚ) :=
  (alookup obs k).bind numCells

/-- Overwrite the entries of a column where a boolean mask holds
(one column of `df.loc[mask, k] = v`). -/
def maskSet (vs : List OVal) (mask : List Bool) (v : OVal) : List OVal :=
  List.zipWith (fun x b => if b then v else x) vs mask

/-- Performs `df.loc[mask, k] = v`: update column `k` under `mask`, leaving every
other column untouched. -/
def locSet (obs : Obs) (k : String) (mask : List Bool) (v : OVal) : Obs :=
  obs.map (fun p => if p.1 = k then (p.1, maskSet p.2 mask v) else p)

/-- Embeds `cellranger2` (`ingredients.py` lines 239-263), the CellRanger 2.1
knee-point labelling: ensure a `total_counts` column (from row sums of `.X`
when absent), sort it descending, take the `upper_quant` quantile of the
first `expected` entries times `lower_prop` as the threshold, store it in
`.uns["knee_thresh"]`, and set `.obs["knee_point"]` to 0 everywhere and then
to 1 where `total_counts` exceeds the threshold. Verbose printing is omitted;
the result is `none` where numpy/pandas would raise (quantile of an empty
slice, non-numeric counts column). -/
def cellranger2 (adata : AnnData) (expected : ℕ) (upper_quant lower_prop : ℚ) :
    Option AnnData :=
  let obs0 :=
    if (alookup adata.obs "total_counts").isSome then adata.obs
    else aset adata.obs "total_counts" ((rowSums adata.X).map OVal.num)
  (numCol obs0 "total_counts").bind fun tc =>
    (npQuantile ((sortDesc tc).take expected) upper_quant).map fun qv =>
      let thresh := qv * lower_prop
      let obs1 := aset obs0 "knee_point" (List.replicate tc.length (OVal.num 0))
      let obs2 :=
        locSet obs1 "knee_point" (tc.map (fun c => decide (thresh < c))) (OVal.num 1)
      { adata with obs := obs2, uns := aset adata.uns "knee_thresh" thresh }

/-- Claim-side (C1): the effective per-cell total counts — the existing
`total_counts` column when present, otherwise the row sums of `.X`. -/
def specTotalCounts (adata : AnnData) : Option (List ℚ) :=
  if (alookup adata.obs "total_counts").isSome then numCol adata.obs "total_counts"
  else some (rowSums adata.X)

/-- Claim-side (C1): the `upper_quant` quantile of the first `expected`
entries of the descending-sorted counts, multiplied by `lower_prop`. -/
def specKneeThresh (tc : List ℚ) (expected : ℕ) (upper_quant lower_prop : ℚ) :
    Option ℚ :=
  (npQuantile ((sortDesc tc).take expected) upper_quant).map (fun qv => qv * lower_prop)

/-- Claim-side (C1): label 1 exactly the cells whose total counts are strictly
greater than the threshold, 0 all others. -/
def specKneePoint (tc : List ℚ) (thresh : ℚ) : List OVal :=
  tc.map (fun c => if thresh < c then OVal.num 1 else OVal.num 0)

/-! ### `.obs`-column subsetting (`subset_adata`) -/

/-- Row slicing by a boolean mask (`adata[mask, :]` applied to one
row-indexed attribute). -/
def maskFilter {α : Type} : List Bool → List α → List α
  | b :: bs, x :: xs => if b then x :: maskFilter bs xs else maskFilter bs xs
  | _, _ => []

/-- The `for` loop of `subset_adata`: for each listed column in turn, set the
`adata_subset_combined` column to 1 on the rows where that column equals 1. -/
def subsetLoop (obs : Obs) : List String → Obs
  | [] => obs
  | k :: rest =>
    subsetLoop
      (locSet obs "adata_subset_combined"
        (((alookup obs k).getD []).map (fun v => v == OVal.num 1)) (OVal.num 1))
      rest

/-- Embeds `subset_adata` (`ingredients.py` lines 266-285) on a list of
column names: create the all-zero `adata_subset_combined` column, set it to 1
on the union of the listed labels, slice every row-indexed attribute to the
rows where it equals 1, and drop the temporary column from the sliced copy
only. Returns `(mutated input, returned subset)`, reflecting that the Python
function mutates `adata` in place and returns a new object; `none` where
Python would raise a `KeyError` (a listed column is absent). Verbose printing
is omitted. -/
def subset_adata_core (adata : AnnData) (subset : List String) :
    AnnData × AnnData :=
  let obs2 := subsetLoop
    (aset adata.obs "adata_subset_combined"
      (List.replicate adata.n_obs (OVal.num 0))) subset
  let mask := ((alookup obs2 "adata_subset_combined").getD []).map
    (fun v => v == OVal.num 1)
  let res : AnnData :=
    { X := maskFilter mask adata.X,
      obs := obs2.map (fun p => (p.1, maskFilter mask p.2)),
      layers := adata.layers.map (fun p => (p.1, maskFilter mask p.2)),
      uns := adata.uns,
      var_names := adata.var_names }
  ({ adata with obs := obs2 },
    { res with obs := adrop res.obs "adata_subset_combined" })

/-- The full `subset_adata`: guard column presence (Python raises `KeyError` on
a missing listed column), then run the body. -/
def subset_adata (adata : AnnData) (subset : List String) :
    Option (AnnData × AnnData) :=
  if subset.all (fun k => (alookup adata.obs k).isSome) then
    some (subset_adata_core adata subset)
  else none

/-- The `isinstance(subset, str)` branch of `subset_adata`: a single column
name is treated as a one-element list. -/
def subset_adata_str (adata : AnnData) (name : String) :
    Option (AnnData × AnnData) :=
  subset_adata adata [name]

/-- Claim-side (C3): a cell belongs to the union of the labels when at least
one listed column holds 1 at its position. -/
def specKeepMask (adata : AnnData) (subset : List String) : List Bool :=
  (List.range adata.n_obs).map (fun i =>
    subset.any (fun k =>
      ((alookup adata.obs k).getD []).getD i (OVal.num 0) == OVal.num 1))

/-- Claim-side (C10): the combined 0/1 column — 1 for the cells matching at
least one listed label, 0 for all others. -/
def specCombined (adata : AnnData) (subset : List String) : List OVal :=
  (List.range adata.n_obs).map (fun i =>
    if subset.any (fun k =>
        ((alookup adata.obs k).getD []).getD i (OVal.num 0) == OVal.num 1)
      then OVal.num 1 else OVal.num 0)

/-! ### Cell-cycle scoring (`cc_score`) -/

/-- Human S-phase genes (`ingredients.py` lines 19-63). -/
def s_genes_h : List String :=
  ["MCM5", "PCNA", "TYMS", "FEN1", "MCM2", "MCM4", "RRM1", "UNG", "GINS2",
   "MCM6", "CDCA7", "DTL", "PRIM1", "UHRF1", "MLF1IP", "HELLS", "RFC2",
   "RPA2", "NASP", "RAD51AP1", "GMNN", "WDR76", "SLBP", "CCNE2", "UBR7",
   "POLD3", "MSH2", "ATAD2", "RAD51", "RRM2", "CDC45", "CDC6", "EXO1",
   "TIPIN", "DSCC1", "BLM", "CASP8AP2", "USP1", "CLSPN", "POLA1", "CHAF1B",
   "BRIP1", "E2F8"]

/-- Mouse S-phase genes (`ingredients.py` lines 64-106). -/
def s_genes_m : List String :=
  ["Gmnn", "Rad51", "Cdca7", "Pold3", "Slbp", "Prim1", "Dscc1", "Rad51ap1",
   "Fen1", "Mcm4", "Ccne2", "Tyms", "Rrm2", "Usp1", "Wdr76", "Mcm2", "Ung",
   "E2f8", "Exo1", "Chaf1b", "Blm", "Clspn", "Cdc45", "Cdc6", "Hells",
   "Nasp", "Ubr7", "Casp8ap2", "Mcm5", "Uhrf1", "Pcna", "Rrm1", "Rfc2",
   "Tipin", "Brip1", "Gins2", "Dtl", "Pola1", "Rpa2", "Mcm6", "Msh2"]

/-- Human G2M-phase genes (`ingredients.py` lines 107-162). -/
def g2m_genes_h : List String :=
  ["HMGB2", "CDK1", "NUSAP1", "UBE2C", "BIRC5", "TPX2", "TOP2A", "NDC80",
   "CKS2", "NUF2", "CKS1B", "MKI67", "TMPO", "CENPF", "TACC3", "FAM64A",
   "SMC4", "CCNB2", "CKAP2L", "CKAP2", "AURKB", "BUB1", "KIF11", "ANP32E",
   "TUBB4B", "GTSE1", "KIF20B", "HJURP", "CDCA3", "HN1", "CDC20", "TTK",
   "CDC25C", "KIF2C", "RANGAP1", "NCAPD2", "DLGAP5", "CDCA2", "CDCA8",
   "ECT2", "KIF23", "HMMR", "AURKA", "PSRC1", "ANLN", "LBR", "CKAP5",
   "CENPE", "CTCF", "NEK2", "G2E3", "GAS2L3", "CBX5", "CENPA"]

/-- Mouse G2M-phase genes (`ingredients.py` lines 163-217). -/
def g2m_genes_m : List String :=
  ["Tmpo", "Smc4", "Tacc3", "Cdk1", "Ckap2l", "Cks2", "Mki67", "Ckap5",
   "Nusap1", "Top2a", "Ect2", "Cdca3", "Cdc25c", "Cks1b", "Kif11", "Psrc1",
   "Dlgap5", "Ckap2", "Aurkb", "Ttk", "Cdca8", "Cdca2", "Cdc20", "Lbr",
   "Birc5", "Kif20b", "Nuf2", "Anp32e", "Cenpf", "Kif2c", "Ube2c", "Cenpa",
   "Rangap1", "Hjurp", "Ndc80", "Ncapd2", "Anln", "Cenpe", "Cbx5", "Hmgb2",
   "Gas2l3", "Cks1brt", "Bub1", "Gtse1", "Nek2", "G2e3", "Tpx2", "Hmmr",
   "Aurka", "Ccnb2", "Ctcf", "Tubb4b", "Kif23"]

/-- The three `.obs` annotations the external `sc.tl.score_genes_cell_cycle`
call adds (S score, G2M score, implied phase). -/
structure CCScores where
  s_score : List OVal
  g2m_score : List OVal
  phase : List OVal

/-- The species check of `cc_score` (`ingredients.py` lines 311-315): human
lists when any human cell-cycle gene is among `var_names`, else mouse lists
when any mouse gene is; otherwise the local variables `s_genes`/`g2m_genes`
are never assigned and using them raises (`UnboundLocalError`), modelled as
`none`. -/
def ccGenes (var_names : List String) : Option (List String × List String) :=
  if (s_genes_h ++ g2m_genes_h).any (fun item => decide (item ∈ var_names)) then
    some (s_genes_h, g2m_genes_h)
  else if (s_genes_m ++ g2m_genes_m).any (fun item => decide (item ∈ var_names)) then
    some (s_genes_m, g2m_genes_m)
  else none

/-- Model of the external `sc.tl.score_genes_cell_cycle` writing its results:
per the spec it adds the cell-cycle score and phase annotations to `.obs`;
the annotation values are a parameter of `cc_score`. -/
def applyScores (a : AnnData) (s : CCScores) : AnnData :=
  { a with
    obs := aset (aset (aset a.obs "S_score" s.s_score)
      "G2M_score" s.g2m_score) "phase" s.phase }

/-- Embeds `cc_score` (`ingredients.py` lines 288-326), parametric in the
score values `scc` the external `sc.tl.score_genes_cell_cycle` call produces
from the object it is given: when `layer` is set, copy `.X` into the `temp`
layer and replace `.X` by the chosen layer (a missing layer key raises
`KeyError`); pick the species gene lists (no match raises
`UnboundLocalError`); score; when `layer` is set, restore `.X` from `temp`
and delete `temp`. An `Except`-error carries the mutated state at the raise
point. Verbose printing is omitted. -/
def cc_score (scc : AnnData → List String → List String → ℤ → CCScores)
    (adata : AnnData) (layer : Option String) (seed : ℤ) :
    Except AnnData AnnData :=
  let step1 : Except AnnData AnnData :=
    match layer with
    | none => .ok adata
    | some l =>
      let a1 := { adata with layers := aset adata.layers "temp" adata.X }
      match alookup a1.layers l with
      | none => .error a1
      | some L => .ok { a1 with X := L }
  match step1 with
  | .error a => .error a
  | .ok a =>
    match ccGenes a.var_names with
    | none => .error a
    | some (s, g) =>
      let a3 := applyScores a (scc a s g seed)
      match layer with
      | none => .ok a3
      | some _ =>
        match alookup a3.layers "temp" with
        | none => .error a3
        | some T => .ok { a3 with X := T, layers := adrop a3.layers "temp" }

/-! ### Dimension reduction orchestration (`dim_reduce`) -/

/-- One delegated call of `dim_reduce` to the external library, with the
arguments the source passes. -/
inductive ScCall where
  | pp_pca (n_comps : ℕ) (random_state : ℤ)
  | pp_neighbors (n_neighbors : ℕ) (n_pcs : ℕ) (use_rep : Option String)
      (random_state : ℤ)
  | tl_leiden (resolution : ℚ) (random_state : ℤ)
  | tl_paga
  | pl_paga
  | tl_umap (init_pos : String) (random_state : ℤ)
deriving DecidableEq

/-- Trace embedding of `dim_reduce` (`ingredients.py` lines 328-389): the
sequence of calls delegated to the external library, in order, with the
arguments the source passes (`sc.pl.paga` is the non-showing plotting call
that computes the PAGA positions `sc.tl.umap` is initialized from;
`int(np.sqrt(n_obs))` is `Nat.sqrt`). The copy of `layer` into `.X` (line
351) and verbose printing delegate no algorithm and are not trace events. -/
def dim_reduce (n_obs : ℕ) (use_rep : Option String) (clust_resolution : ℚ)
    (seed : ℤ) : List ScCall :=
  match use_rep with
  | none =>
    [ScCall.pp_pca 50 seed,
     ScCall.pp_neighbors (Nat.sqrt n_obs) 20 none seed,
     ScCall.tl_leiden clust_resolution seed,
     ScCall.tl_paga,
     ScCall.pl_paga,
     ScCall.tl_umap "paga" seed]
  | some rep =>
    [ScCall.pp_neighbors (Nat.sqrt n_obs) 0 (some rep) seed,
     ScCall.tl_leiden clust_resolution seed,
     ScCall.tl_paga,
     ScCall.pl_paga,
     ScCall.tl_umap "paga" seed]

/-- The `random_state` argument a call is passed, when it has one
(`sc.tl.paga` and `sc.pl.paga` accept no `random_state`). -/
def callSeed : ScCall → Option ℤ
  | .pp_pca _ r => some r
  | .pp_neighbors _ _ _ r => some r
  | .tl_leiden _ r => some r
  | .tl_paga => none
  | .pl_paga => none
  | .tl_umap _ r => some r

/-! ### Directory-creation guard (`check_dir_exists`) -/

/-- The errno value `EEXIST`. -/
def EEXIST : ℕ := 17

/-- Minimal filesystem state for the `os.makedirs` model: the set of paths
that already name a directory. -/
structure FS where
  dirs : List String
deriving DecidableEq

/-- Model of the external `os.makedirs`: creating a path that already names an
existing directory raises `OSError` with errno `EEXIST`; otherwise the
directory is created. -/
def makedirsFS (fs : FS) (path : String) : Except ℕ FS :=
  if path ∈ fs.dirs then .error EEXIST else .ok ⟨path :: fs.dirs⟩

/-- Embeds `check_dir_exists` (`ingredients.py` lines 220-228), parametric in
the behaviour `mk` of the external `os.makedirs` call: try to create the
directory; an `OSError` whose errno is not `EEXIST` is re-raised, an `EEXIST`
error is suppressed. -/
def check_dir_exists (mk : FS → String → Except ℕ FS) (fs : FS) (path : String) :
    Except ℕ FS :=
  match mk fs path with
  | .ok fs2 => .ok fs2
  | .error e => if e ≠ EEXIST then .error e else .ok fs

end Kitchen

namespace Kitchen

/-! ## Theorems -/

theorem pyCeil_mul_ge (a b : ℕ) (hb : 0 < b) : a ≤ pyCeil a b * b := by
  have hbq : (0 : ℚ) < (b : ℚ) := by exact_mod_cast hb
  have h1 : ((a : ℚ) / (b : ℚ)) ≤ ((Int.ceil ((a : ℚ) / (b : ℚ)) : ℤ) : ℚ) :=
    Int.le_ceil _
  have h0 : (0 : ℤ) ≤ Int.ceil ((a : ℚ) / (b : ℚ)) :=
    Int.ceil_nonneg (div_nonneg (by positivity) (le_of_lt hbq))
  have h2 : (a : ℚ) ≤ ((Int.ceil ((a : ℚ) / (b : ℚ)) : ℤ) : ℚ) * (b : ℚ) :=
    (div_le_iff₀ hbq).mp h1
  have h3 : ((pyCeil a b : ℕ) : ℤ) = Int.ceil ((a : ℚ) / (b : ℚ)) :=
    Int.toNat_of_nonneg h0
  have h4 : ((pyCeil a b : ℕ) : ℚ) * (b : ℚ) = ((Int.ceil ((a : ℚ) / (b : ℚ)) : ℤ) : ℚ) * (b : ℚ) := by
    rw [← h3]; push_cast; ring
  have h5 : (a : ℚ) ≤ ((pyCeil a b : ℕ) : ℚ) * (b : ℚ) := h4 ▸ h2
  exact_mod_cast h5

/-- C6: `plot_embedding` grid layout: with `n_plots` distinct overlays and a
requested (positive) column count `ncols`, the grid is `(1, n_plots)` when
`n_plots ≤ ncols` and `(⌈n_plots / ncols⌉, ncols)` otherwise, and its capacity
`n_rows * n_cols` is always at least `n_plots`. -/
theorem C6_plot_embedding_grid (n_plots ncols : ℕ) (h : 0 < ncols) :
    (n_plots ≤ ncols → plot_embedding_grid n_plots ncols = (1, n_plots)) ∧
    (ncols < n_plots →
      plot_embedding_grid n_plots ncols = (pyCeil n_plots ncols, ncols)) ∧
    n_plots ≤
      (plot_embedding_grid n_plots ncols).1 * (plot_embedding_grid n_plots ncols).2 := by
  refine ⟨fun hle => by simp [plot_embedding_grid, hle], fun hlt => by
    simp [plot_embedding_grid, Nat.not_le.mpr hlt], ?_⟩
  by_cases hle : n_plots ≤ ncols
  · simp [plot_embedding_grid, hle]
  · simpa [plot_embedding_grid, hle] using pyCeil_mul_ge n_plots ncols h

theorem C6_plot_embedding_grid_witness :
    0 < 3 ∧
      (3 < 7 → plot_embedding_grid 7 3 = (pyCeil 7 3, 3)) ∧
      7 ≤ (plot_embedding_grid 7 3).1 * (plot_embedding_grid 7 3).2 :=
  ⟨by decide, (C6_plot_embedding_grid 7 3 (by decide)).2.1,
    (C6_plot_embedding_grid 7 3 (by decide)).2.2⟩

/-- C7: `rank_genes_cnmf` grid layout: with `n_panels` panels the grid is
`(1, n_panels)` when `n_panels ≤ 5` and `(⌈n_panels / 4⌉, 4)` otherwise, and
its capacity `n_rows * n_cols` is always at least `n_panels`. -/
theorem C7_rank_genes_cnmf_grid (n_panels : ℕ) :
    (n_panels ≤ 5 → rank_genes_cnmf_grid n_panels = (1, n_panels)) ∧
    (5 < n_panels → rank_genes_cnmf_grid n_panels = (pyCeil n_panels 4, 4)) ∧
    n_panels ≤ (rank_genes_cnmf_grid n_panels).1 * (rank_genes_cnmf_grid n_panels).2 := by
  refine ⟨fun hle => by simp [rank_genes_cnmf_grid, hle], fun hlt => by
    simp [rank_genes_cnmf_grid, Nat.not_le.mpr hlt], ?_⟩
  by_cases hle : n_panels ≤ 5
  · simp [rank_genes_cnmf_grid, hle]
  · simpa [rank_genes_cnmf_grid, hle] using pyCeil_mul_ge n_panels 4 (by norm_num)

theorem C7_rank_genes_cnmf_grid_witness :
    (5 < 9 → rank_genes_cnmf_grid 9 = (pyCeil 9 4, 4)) ∧
      9 ≤ (rank_genes_cnmf_grid 9).1 * (rank_genes_cnmf_grid 9).2 :=
  ⟨(C7_rank_genes_cnmf_grid 9).2.1, (C7_rank_genes_cnmf_grid 9).2.2⟩

/-! Association-list lemmas. -/

theorem alookup_aset_self {β : Type} (l : AList β) (k : String) (v : β) :
    alookup (aset l k v) k = some v := by
  induction l with
  | nil => simp [aset, alookup]
  | cons p rest ih =>
    by_cases hp : p.1 = k
    · simp [aset, hp, alookup]
    · simp [aset, hp, alookup, ih]

theorem alookup_aset_ne {β : Type} (l : AList β) (k k2 : String) (v : β)
    (h : k ≠ k2) : alookup (aset l k v) k2 = alookup l k2 := by
  induction l with
  | nil => simp [aset, alookup, h]
  | cons p rest ih =>
    by_cases hp : p.1 = k
    · subst hp
      simp [aset, alookup, h]
    · simp [aset, alookup, hp, ih]

theorem alookup_locSet_self (obs : Obs) (k : String) (m : List Bool) (v : OVal) :
    alookup (locSet obs k m v) k = (alookup obs k).map (fun vs => maskSet vs m v) := by
  induction obs with
  | nil => simp [locSet, alookup]
  | cons p rest ih =>
    by_cases hp : p.1 = k
    · subst hp
      simp [locSet, alookup]
    · simpa [locSet, alookup, hp] using ih

theorem alookup_locSet_ne (obs : Obs) (k k2 : String) (m : List Bool) (v : OVal)
    (h : k ≠ k2) : alookup (locSet obs k m v) k2 = alookup obs k2 := by
  induction obs with
  | nil => simp [locSet, alookup]
  | cons p rest ih =>
    by_cases hp : p.1 = k
    · subst hp
      simpa [locSet, alookup, h] using ih
    · by_cases hp2 : p.1 = k2
      · subst hp2
        simp [locSet, alookup, hp]
      · simpa [locSet, alookup, hp, hp2] using ih

theorem locSet_of_not_mem (k : String) (m : List Bool) (v : OVal) :
    ∀ obs : Obs, (∀ p ∈ obs, p.1 ≠ k) → locSet obs k m v = obs
  | [], _ => rfl
  | p :: rest, h => by
    have hp : p.1 ≠ k := h p (List.mem_cons_self p rest)
    have hrest := locSet_of_not_mem k m v rest
      (fun q hq => h q (List.mem_cons_of_mem p hq))
    simpa [locSet, hp] using hrest

theorem mem_aset {β : Type} : ∀ (l : AList β) (k : String) (v : β) (q : String × β),
    q ∈ aset l k v → q.1 = k ∨ q ∈ l
  | [], k, v, q, h => by
    simp [aset] at h
    exact Or.inl (by rw [h])
  | p :: rest, k, v, q, h => by
    by_cases hp : p.1 = k
    · rw [show aset (p :: rest) k v = (k, v) :: rest from by simp [aset, hp]] at h
      rcases List.mem_cons.mp h with h1 | h1
      · exact Or.inl (by rw [h1])
      · exact Or.inr (List.mem_cons_of_mem p h1)
    · rw [show aset (p :: rest) k v = p :: aset rest k v from by simp [aset, hp]] at h
      rcases List.mem_cons.mp h with h1 | h1
      · exact Or.inr (by rw [h1]; exact List.mem_cons_self p rest)
      · rcases mem_aset rest k v q h1 with h2 | h2
        · exact Or.inl h2
        · exact Or.inr (List.mem_cons_of_mem p h2)

theorem pairwise_keys_aset {β : Type} : ∀ (l : AList β) (k : String) (v : β),
    l.Pairwise (fun p q => p.1 ≠ q.1) →
      (aset l k v).Pairwise (fun p q => p.1 ≠ q.1)
  | [], k, v, _ => by simp [aset]
  | p :: rest, k, v, h => by
    rcases List.pairwise_cons.mp h with ⟨h1, h2⟩
    by_cases hp : p.1 = k
    · rw [show aset (p :: rest) k v = (k, v) :: rest from by simp [aset, hp]]
      refine List.pairwise_cons.mpr ⟨?_, h2⟩
      intro q hq
      rw [← hp]
      exact h1 q hq
    · rw [show aset (p :: rest) k v = p :: aset rest k v from by simp [aset, hp]]
      refine List.pairwise_cons.mpr ⟨?_, pairwise_keys_aset rest k v h2⟩
      intro q hq
      rcases mem_aset rest k v q hq with h3 | h3
      · rw [h3]; exact hp
      · exact h1 q h3

theorem aset_aset_self {β : Type} (l : AList β) (k : String) (v w : β) :
    aset (aset l k v) k w = aset l k w := by
  induction l with
  | nil => simp [aset]
  | cons p rest ih =>
    by_cases hp : p.1 = k
    · simp [aset, hp]
    · simp [aset, hp, ih]

theorem aset_locSet_self : ∀ (obs : Obs) (k : String) (m : List Bool) (v : OVal)
    (w : List OVal), obs.Pairwise (fun p q => p.1 ≠ q.1) →
      aset (locSet obs k m v) k w = aset obs k w
  | [], _, _, _, _, _ => rfl
  | p :: rest, k, m, v, w, h => by
    rcases List.pairwise_cons.mp h with ⟨h1, h2⟩
    by_cases hp : p.1 = k
    · have hrest : locSet rest k m v = rest :=
        locSet_of_not_mem k m v rest
          (fun q hq hk => h1 q hq (hp.trans hk.symm))
      rw [show locSet (p :: rest) k m v
          = (if p.1 = k then (p.1, maskSet p.2 m v) else p) :: locSet rest k m v
          from rfl, if_pos hp, hrest]
      rw [show aset ((p.1, maskSet p.2 m v) :: rest) k w = (k, w) :: rest
          from by simp [aset, hp]]
      rw [show aset (p :: rest) k w = (k, w) :: rest from by simp [aset, hp]]
    · rw [show locSet (p :: rest) k m v
          = (if p.1 = k then (p.1, maskSet p.2 m v) else p) :: locSet rest k m v
          from rfl, if_neg hp]
      rw [show aset (p :: locSet rest k m v) k w = p :: aset (locSet rest k m v) k w
          from by simp [aset, hp]]
      rw [show aset (p :: rest) k w = p :: aset rest k w from by simp [aset, hp]]
      rw [aset_locSet_self rest k m v w h2]

/-! Numeric-column lemmas. -/

theorem numCells_map_num (qs : List ℚ) : numCells (qs.map OVal.num) = some qs := by
  induction qs with
  | nil => rfl
  | cons q rest ih => simp [numCells, ih]

theorem numCells_eq_some (vs : List OVal) (qs : List ℚ)
    (h : numCells vs = some qs) : vs = qs.map OVal.num := by
  induction vs generalizing qs with
  | nil => simp [numCells] at h; simp [← h]
  | cons v rest ih =>
    match v with
    | .str s => simp [numCells] at h
    | .num q =>
      simp [numCells] at h
      rcases h with ⟨qs0, h0, h1⟩
      simp [← h1, ih qs0 h0]

theorem maskSet_replicate_thresh (tc : List ℚ) (thresh : ℚ) :
    maskSet (List.replicate tc.length (OVal.num 0))
      (tc.map (fun c => decide (thresh < c))) (OVal.num 1) = specKneePoint tc thresh := by
  induction tc with
  | nil => rfl
  | cons c cs ih =>
    simp only [List.length_cons, List.replicate_succ, List.map_cons, maskSet,
      List.zipWith_cons_cons, specKneePoint] at ih ⊢
    by_cases hc : thresh < c <;> simp [hc, ih]

/-! `cellranger2`: success characterization shared by C1 and C8. -/

theorem specTotalCounts_eq (adata : AnnData) :
    specTotalCounts adata =
      numCol
        (if (alookup adata.obs "total_counts").isSome then adata.obs
         else aset adata.obs "total_counts" ((rowSums adata.X).map OVal.num))
        "total_counts" := by
  by_cases hpres : (alookup adata.obs "total_counts").isSome
  · simp [specTotalCounts, hpres]
  · simp [specTotalCounts, hpres, numCol, alookup_aset_self, numCells_map_num]

theorem cellranger2_eq (adata : AnnData) (expected : ℕ) (uq lp : ℚ)
    (tc : List ℚ) (qv : ℚ)
    (htc : specTotalCounts adata = some tc)
    (hq : npQuantile ((sortDesc tc).take expected) uq = some qv) :
    cellranger2 adata expected uq lp =
      some { adata with
        obs := locSet
          (aset
            (if (alookup adata.obs "total_counts").isSome then adata.obs
             else aset adata.obs "total_counts" ((rowSums adata.X).map OVal.num))
            "knee_point" (List.replicate tc.length (OVal.num 0)))
          "knee_point" (tc.map (fun c => decide (qv * lp < c))) (OVal.num 1),
        uns := aset adata.uns "knee_thresh" (qv * lp) } := by
  have htc2 := (specTotalCounts_eq adata).symm.trans htc
  simp only [cellranger2]
  rw [htc2, Option.some_bind, hq, Option.map_some']

theorem cellranger2_total_counts (adata : AnnData) (tc : List ℚ)
    (htc : specTotalCounts adata = some tc) :
    alookup
        (if (alookup adata.obs "total_counts").isSome then adata.obs
         else aset adata.obs "total_counts" ((rowSums adata.X).map OVal.num))
        "total_counts" = some (tc.map OVal.num) := by
  by_cases hpres : (alookup adata.obs "total_counts").isSome
  · have htc2 : numCol adata.obs "total_counts" = some tc := by
      simpa [specTotalCounts, hpres] using htc
    rcases Option.isSome_iff_exists.mp hpres with ⟨vs, hvs⟩
    have : numCells vs = some tc := by simpa [numCol, hvs] using htc2
    simp [hpres, hvs, numCells_eq_some vs tc this]
  · have htc2 : tc = rowSums adata.X := by
      have := htc
      simp [specTotalCounts, hpres] at this
      exact this.symm
    simp [hpres, alookup_aset_self, htc2]

/-- C1: `cellranger2` performs quantile thresholding: it derives per-cell
total counts (computing them as row sums of `.X` only when the `total_counts`
column is absent), sorts them in descending order, takes the `upper_quant`
quantile of the first `expected` entries times `lower_prop`, stores that
threshold in `.uns["knee_thresh"]`, and labels `.obs["knee_point"]` with 1
exactly for the cells whose total counts strictly exceed the threshold and 0
for all others, leaving `.X`, `.layers` and `.var_names` unchanged. -/
theorem C1_cellranger2_quantile_thresholding (adata : AnnData) (expected : ℕ)
    (upper_quant lower_prop : ℚ) (tc : List ℚ) (thresh : ℚ)
    (htc : specTotalCounts adata = some tc)
    (hth : specKneeThresh tc expected upper_quant lower_prop = some thresh) :
    ∃ a2 : AnnData, cellranger2 adata expected upper_quant lower_prop = some a2 ∧
      alookup a2.uns "knee_thresh" = some thresh ∧
      alookup a2.obs "knee_point" = some (specKneePoint tc thresh) ∧
      alookup a2.obs "total_counts" = some (tc.map OVal.num) ∧
      a2.X = adata.X ∧ a2.layers = adata.layers ∧ a2.var_names = adata.var_names := by
  rcases Option.map_eq_some'.mp hth with ⟨qv, hq, hqe⟩
  subst hqe
  refine ⟨_, cellranger2_eq adata expected upper_quant lower_prop tc qv htc hq,
    ?_, ?_, ?_, rfl, rfl, rfl⟩
  · exact alookup_aset_self _ _ _
  · rw [alookup_locSet_self, alookup_aset_self]
    simp [maskSet_replicate_thresh]
  · rw [alookup_locSet_ne _ _ _ _ _ (by decide),
      alookup_aset_ne _ _ _ _ (by decide)]
    exact cellranger2_total_counts adata tc htc

theorem C1_cellranger2_quantile_thresholding_witness :
    specTotalCounts (AnnData.mk [[1], [2], [3]] [] [] [] ["g"]) = some [1, 2, 3] ∧
      specKneeThresh [1, 2, 3] 2 1 1 = some 3 ∧
      ∃ a2 : AnnData,
        cellranger2 (AnnData.mk [[1], [2], [3]] [] [] [] ["g"]) 2 1 1 = some a2 ∧
          alookup a2.uns "knee_thresh" = some 3 ∧
          alookup a2.obs "knee_point" = some (specKneePoint [1, 2, 3] 3) ∧
          alookup a2.obs "total_counts" = some ([1, 2, 3].map OVal.num) ∧
          a2.X = [[1], [2], [3]] ∧ a2.layers = [] ∧ a2.var_names = ["g"] :=
  ⟨by simp [specTotalCounts, alookup, rowSums],
    by norm_num [specKneeThresh, npQuantile, sortDesc, sortAsc, insertAsc],
    C1_cellranger2_quantile_thresholding (AnnData.mk [[1], [2], [3]] [] [] [] ["g"])
      2 1 1 [1, 2, 3] 3
      (by simp [specTotalCounts, alookup, rowSums])
      (by norm_num [specKneeThresh, npQuantile, sortDesc, sortAsc, insertAsc])⟩

theorem cellranger2_inv (adata : AnnData) (expected : ℕ) (uq lp : ℚ)
    (a2 : AnnData) (h : cellranger2 adata expected uq lp = some a2) :
    ∃ tc qv, specTotalCounts adata = some tc ∧
      npQuantile ((sortDesc tc).take expected) uq = some qv := by
  simp only [cellranger2] at h
  rcases Option.bind_eq_some.mp h with ⟨tc, htc, h2⟩
  rcases Option.map_eq_some'.mp h2 with ⟨qv, hq, _⟩
  exact ⟨tc, qv, (specTotalCounts_eq adata).trans htc, hq⟩

/-- C8: `cellranger2` is idempotent on well-formed objects (distinct `.obs`
column names): whenever a first call succeeds, a second call with the same
`expected`, `upper_quant`, `lower_prop` returns the object of the first call
exactly as it was — the same `.uns["knee_thresh"]`, the same
`.obs["knee_point"]`, and everything else — because `total_counts` is
computed only when absent and never altered by the call. -/
theorem C8_cellranger2_idempotent (adata : AnnData) (expected : ℕ)
    (upper_quant lower_prop : ℚ) (a2 : AnnData)
    (hnd : adata.obs.Pairwise (fun p q => p.1 ≠ q.1))
    (h : cellranger2 adata expected upper_quant lower_prop = some a2) :
    cellranger2 a2 expected upper_quant lower_prop = some a2 := by
  rcases cellranger2_inv adata expected upper_quant lower_prop a2 h with
    ⟨tc, qv, htc, hq⟩
  have h2 := cellranger2_eq adata expected upper_quant lower_prop tc qv htc hq
  rw [h] at h2
  have ha2 := Option.some.inj h2
  have hnd0 : (if (alookup adata.obs "total_counts").isSome then adata.obs
      else aset adata.obs "total_counts"
        ((rowSums adata.X).map OVal.num)).Pairwise (fun p q => p.1 ≠ q.1) := by
    by_cases hpres : (alookup adata.obs "total_counts").isSome
    · simpa [hpres] using hnd
    · simpa [hpres] using pairwise_keys_aset adata.obs "total_counts" _ hnd
  have hnd1 : (aset
      (if (alookup adata.obs "total_counts").isSome then adata.obs
       else aset adata.obs "total_counts" ((rowSums adata.X).map OVal.num))
      "knee_point" (List.replicate tc.length (OVal.num 0))).Pairwise
        (fun p q => p.1 ≠ q.1) :=
    pairwise_keys_aset _ _ _ hnd0
  have hobs_a2 : a2.obs = locSet
      (aset
        (if (alookup adata.obs "total_counts").isSome then adata.obs
         else aset adata.obs "total_counts" ((rowSums adata.X).map OVal.num))
        "knee_point" (List.replicate tc.length (OVal.num 0)))
      "knee_point" (tc.map (fun c => decide (qv * lower_prop < c))) (OVal.num 1) := by
    rw [ha2]
  have huns_a2 : a2.uns = aset adata.uns "knee_thresh" (qv * lower_prop) := by
    rw [ha2]
  have htcol : alookup a2.obs "total_counts" = some (tc.map OVal.num) := by
    rw [hobs_a2, alookup_locSet_ne _ _ _ _ _ (by decide),
      alookup_aset_ne _ _ _ _ (by decide)]
    exact cellranger2_total_counts adata tc htc
  have hspec2 : specTotalCounts a2 = some tc := by
    simp [specTotalCounts, numCol, htcol, numCells_map_num]
  have h3 := cellranger2_eq a2 expected upper_quant lower_prop tc qv hspec2 hq
  have hif2 : (if (alookup a2.obs "total_counts").isSome then a2.obs
      else aset a2.obs "total_counts" ((rowSums a2.X).map OVal.num)) = a2.obs := by
    simp [htcol]
  rw [hif2] at h3
  have hobsfield : locSet
      (aset a2.obs "knee_point" (List.replicate tc.length (OVal.num 0)))
      "knee_point" (tc.map (fun c => decide (qv * lower_prop < c))) (OVal.num 1)
      = a2.obs := by
    conv_lhs => rw [hobs_a2, aset_locSet_self _ _ _ _ _ hnd1, aset_aset_self]
    rw [← hobs_a2]
  have hunsfield : aset a2.uns "knee_thresh" (qv * lower_prop) = a2.uns := by
    conv_lhs => rw [huns_a2, aset_aset_self]
    rw [← huns_a2]
  rw [h3, hobsfield, hunsfield]

theorem C8_cellranger2_idempotent_witness :
    (AnnData.mk [[1], [2], [3]] [] [] [] ["g"]).obs.Pairwise
        (fun p q => p.1 ≠ q.1) ∧
      ∃ a2 : AnnData,
        cellranger2 (AnnData.mk [[1], [2], [3]] [] [] [] ["g"]) 2 1 1 = some a2 ∧
          cellranger2 a2 2 1 1 = some a2 := by
  have hfirst := cellranger2_eq (AnnData.mk [[1], [2], [3]] [] [] [] ["g"]) 2 1 1
    [1, 2, 3] 3
    (by simp [specTotalCounts, alookup, rowSums])
    (by norm_num [npQuantile, sortDesc, sortAsc, insertAsc])
  exact ⟨List.Pairwise.nil, _, hfirst,
    C8_cellranger2_idempotent _ 2 1 1 _ List.Pairwise.nil hfirst⟩

/-! `subset_adata` lemmas (C3, C10). -/

theorem alookup_adrop_self {β : Type} : ∀ (l : AList β) (k : String),
    alookup (adrop l k) k = none
  | [], _ => rfl
  | p :: rest, k => by
    by_cases hp : p.1 = k
    · simpa [adrop, hp] using alookup_adrop_self rest k
    · simpa [adrop, alookup, hp] using alookup_adrop_self rest k

theorem adrop_locSet (k : String) (m : List Bool) (v : OVal) :
    ∀ obs : Obs, adrop (locSet obs k m v) k = adrop obs k
  | [] => rfl
  | p :: rest => by
    by_cases hp : p.1 = k
    · simpa [locSet, adrop, hp] using adrop_locSet k m v rest
    · simpa [locSet, adrop, hp] using adrop_locSet k m v rest

theorem adrop_aset {β : Type} : ∀ (l : AList β) (k : String) (v : β),
    adrop (aset l k v) k = adrop l k
  | [], k, v => by simp [aset, adrop]
  | p :: rest, k, v => by
    by_cases hp : p.1 = k
    · simp [aset, adrop, hp]
    · simpa [aset, adrop, hp] using adrop_aset rest k v

theorem adrop_of_none {β : Type} : ∀ (l : AList β) (k : String),
    alookup l k = none → adrop l k = l
  | [], _, _ => rfl
  | p :: rest, k, h => by
    by_cases hp : p.1 = k
    · simp [alookup, hp] at h
    · simp only [alookup, hp, if_neg hp] at h
      simpa [adrop, hp] using adrop_of_none rest k h

theorem adrop_subsetLoop : ∀ (subset : List String) (obs : Obs),
    adrop (subsetLoop obs subset) "adata_subset_combined"
      = adrop obs "adata_subset_combined"
  | [], _ => rfl
  | s :: rest, obs => by
    rw [show subsetLoop obs (s :: rest) = subsetLoop
        (locSet obs "adata_subset_combined"
          (((alookup obs s).getD []).map (fun v => v == OVal.num 1)) (OVal.num 1))
        rest from rfl]
    rw [adrop_subsetLoop rest _, adrop_locSet]

theorem getD_replicate_self {α : Type} (c : α) : ∀ (n i : ℕ),
    (List.replicate n c).getD i c = c
  | 0, 0 => rfl
  | 0, _ + 1 => rfl
  | _ + 1, 0 => rfl
  | n + 1, i + 1 => getD_replicate_self c n i

theorem any_congr_mem {α : Type} : ∀ (l : List α) (p q : α → Bool),
    (∀ a ∈ l, p a = q a) → l.any p = l.any q
  | [], _, _, _ => rfl
  | a :: rest, p, q, h => by
    rw [List.any_cons, List.any_cons, h a (List.mem_cons_self a rest),
      any_congr_mem rest p q (fun b hb => h b (List.mem_cons_of_mem a hb))]

theorem maskSet_getD (vs : List OVal) (m : List Bool) (v : OVal) (i : ℕ)
    (h1 : i < vs.length) (h2 : i < m.length) :
    (maskSet vs m v).getD i (OVal.num 0)
      = if m.getD i false then v else vs.getD i (OVal.num 0) := by
  have hlen : i < (maskSet vs m v).length := by
    simp only [maskSet, List.length_zipWith]
    omega
  rw [List.getD_eq_getElem _ _ hlen, List.getD_eq_getElem _ _ h2,
    List.getD_eq_getElem _ _ h1]
  simp [maskSet]

theorem subsetLoop_comb : ∀ (subset : List String) (obs : Obs)
    (comb : List OVal) (n : ℕ),
    (∀ k ∈ subset, k ≠ "adata_subset_combined") →
    alookup obs "adata_subset_combined" = some comb →
    comb.length = n →
    (∀ k ∈ subset, ((alookup obs k).getD []).length = n) →
    alookup (subsetLoop obs subset) "adata_subset_combined" =
      some ((List.range n).map (fun i =>
        if subset.any (fun k =>
            ((alookup obs k).getD []).getD i (OVal.num 0) == OVal.num 1)
          then OVal.num 1 else comb.getD i (OVal.num 0)))
  | [], obs, comb, n, _, hcomb, hlen, _ => by
    rw [show subsetLoop obs [] = obs from rfl, hcomb]
    congr 1
    apply List.ext_getElem (by simp [hlen])
    intro i h1 h2
    rw [List.getElem_map, List.getElem_range]
    simp only [List.any_nil, Bool.false_eq_true, if_false]
    exact (List.getD_eq_getElem comb (OVal.num 0) h1).symm
  | s :: rest, obs, comb, n, hk, hcomb, hlen, hcols => by
    have hsne : s ≠ "adata_subset_combined" := hk s (List.mem_cons_self s rest)
    have hrest : ∀ k ∈ rest, k ≠ "adata_subset_combined" :=
      fun k hkr => hk k (List.mem_cons_of_mem s hkr)
    have hcomb2 : alookup
        (locSet obs "adata_subset_combined"
          (((alookup obs s).getD []).map (fun v => v == OVal.num 1)) (OVal.num 1))
        "adata_subset_combined"
        = some (maskSet comb
            (((alookup obs s).getD []).map (fun v => v == OVal.num 1))
            (OVal.num 1)) := by
      rw [alookup_locSet_self, hcomb]
      rfl
    have hslen : (((alookup obs s).getD []).map
        (fun v => v == OVal.num 1)).length = n := by
      simpa using hcols s (List.mem_cons_self s rest)
    have hlen2 : (maskSet comb
        (((alookup obs s).getD []).map (fun v => v == OVal.num 1))
        (OVal.num 1)).length = n := by
      simp only [maskSet, List.length_zipWith, hslen, hlen]
      omega
    have hcols2 : ∀ k ∈ rest, ((alookup
        (locSet obs "adata_subset_combined"
          (((alookup obs s).getD []).map (fun v => v == OVal.num 1)) (OVal.num 1))
        k).getD []).length = n := by
      intro k hkr
      rw [alookup_locSet_ne _ _ _ _ _ (Ne.symm (hrest k hkr))]
      exact hcols k (List.mem_cons_of_mem s hkr)
    have IH := subsetLoop_comb rest _ _ n hrest hcomb2 hlen2 hcols2
    rw [show subsetLoop obs (s :: rest) = subsetLoop
        (locSet obs "adata_subset_combined"
          (((alookup obs s).getD []).map (fun v => v == OVal.num 1)) (OVal.num 1))
        rest from rfl, IH]
    congr 1
    apply List.map_congr_left
    intro i hi
    have hin : i < n := List.mem_range.mp hi
    have hany : rest.any (fun k =>
        ((alookup (locSet obs "adata_subset_combined"
            (((alookup obs s).getD []).map (fun v => v == OVal.num 1))
            (OVal.num 1)) k).getD []).getD i (OVal.num 0) == OVal.num 1)
        = rest.any (fun k =>
            ((alookup obs k).getD []).getD i (OVal.num 0) == OVal.num 1) := by
      apply any_congr_mem
      intro k hkr
      rw [alookup_locSet_ne _ _ _ _ _ (Ne.symm (hrest k hkr))]
    rw [hany]
    have hms := maskSet_getD comb
      (((alookup obs s).getD []).map (fun v => v == OVal.num 1)) (OVal.num 1) i
      (by omega) (by omega)
    rw [hms]
    have hsl : i < ((alookup obs s).getD []).length := by
      have := hcols s (List.mem_cons_self s rest)
      omega
    have hmd : (((alookup obs s).getD []).map
        (fun v => v == OVal.num 1)).getD i false
        = (((alookup obs s).getD []).getD i (OVal.num 0) == OVal.num 1) := by
      rw [List.getD_eq_getElem _ _ (by simpa using hsl),
        List.getD_eq_getElem _ _ hsl, List.getElem_map]
    rw [hmd, List.any_cons]
    cases hbit : ((alookup obs s).getD []).getD i (OVal.num 0) == OVal.num 1 <;>
      cases hr : rest.any (fun k =>
        ((alookup obs k).getD []).getD i (OVal.num 0) == OVal.num 1) <;>
      simp [hbit, hr]

theorem subset_combined_value (adata : AnnData) (subset : List String)
    (hkC : ∀ k ∈ subset, k ≠ "adata_subset_combined")
    (hlens : ∀ k ∈ subset,
      ((alookup adata.obs k).getD []).length = adata.n_obs) :
    alookup (subsetLoop
        (aset adata.obs "adata_subset_combined"
          (List.replicate adata.n_obs (OVal.num 0))) subset)
      "adata_subset_combined" = some (specCombined adata subset) := by
  have hcols0 : ∀ k ∈ subset, ((alookup
      (aset adata.obs "adata_subset_combined"
        (List.replicate adata.n_obs (OVal.num 0))) k).getD []).length
      = adata.n_obs := by
    intro k hk
    rw [alookup_aset_ne _ _ _ _ (Ne.symm (hkC k hk))]
    exact hlens k hk
  have h1 := subsetLoop_comb subset _ _ adata.n_obs hkC
    (alookup_aset_self adata.obs "adata_subset_combined" _) (by simp) hcols0
  rw [h1]
  congr 1
  unfold specCombined
  apply List.map_congr_left
  intro i hi
  have hany : subset.any (fun k =>
      ((alookup (aset adata.obs "adata_subset_combined"
          (List.replicate adata.n_obs (OVal.num 0))) k).getD []).getD i
        (OVal.num 0) == OVal.num 1)
      = subset.any (fun k =>
          ((alookup adata.obs k).getD []).getD i (OVal.num 0) == OVal.num 1) := by
    apply any_congr_mem
    intro k hk
    rw [alookup_aset_ne _ _ _ _ (Ne.symm (hkC k hk))]
  rw [hany, getD_replicate_self]

theorem specCombined_mask (adata : AnnData) (subset : List String) :
    (specCombined adata subset).map (fun v => v == OVal.num 1)
      = specKeepMask adata subset := by
  unfold specCombined specKeepMask
  rw [List.map_map]
  apply List.map_congr_left
  intro i hi
  simp only [Function.comp_apply]
  cases h : subset.any (fun k =>
      ((alookup adata.obs k).getD []).getD i (OVal.num 0) == OVal.num 1)
  · rw [if_neg (by simp)]
    decide
  · rw [if_pos rfl]
    decide

/-- C3 counterexample: the claim fails when the listed column is the reserved
temporary name `adata_subset_combined` itself: the code zeroes that column
before reading it, so a cell labelled 1 in the input column is dropped, while
the claimed union semantics would keep it. All claim premises hold at this
input (non-empty list, 0/1 column), yet the returned object is empty instead
of containing the labelled cell. -/
theorem C3_subset_adata_union_counterexample :
    (["adata_subset_combined"] ≠ ([] : List String)) ∧
    (∀ v ∈ [OVal.num 1], v = OVal.num 0 ∨ v = OVal.num 1) ∧
    subset_adata
        (AnnData.mk [[5]] [("adata_subset_combined", [OVal.num 1])] [] [] ["g"])
        ["adata_subset_combined"]
      = some
        (AnnData.mk [[5]] [("adata_subset_combined", [OVal.num 0])] [] [] ["g"],
         AnnData.mk [] [] [] [] ["g"]) ∧
    maskFilter
        (specKeepMask
          (AnnData.mk [[5]] [("adata_subset_combined", [OVal.num 1])] [] [] ["g"])
          ["adata_subset_combined"])
        [[5]]
      = [[5]] := by
  refine ⟨by decide, by decide, ?_, by decide⟩
  decide

set_option linter.unusedVariables false in
/-- C3 (amended): for every non-empty list of `.obs` column names — a single
name being treated as a one-element list — none of which is the reserved
temporary name `adata_subset_combined`, whose columns hold 0/1 values,
`subset_adata` returns an object with exactly the cells whose value is 1 in
at least one listed column (the union of the labels), with `n_vars`
unchanged and without the temporary `adata_subset_combined` column. -/
theorem C3_subset_adata_union (adata : AnnData) (subset : List String)
    (hne : subset ≠ [])
    (hres : "adata_subset_combined" ∉ subset)
    (hcols : ∀ k ∈ subset, ∃ col, alookup adata.obs k = some col ∧
      col.length = adata.n_obs ∧ (∀ v ∈ col, v = OVal.num 0 ∨ v = OVal.num 1)) :
    (∀ name : String, subset_adata_str adata name = subset_adata adata [name]) ∧
    ∃ amut res : AnnData, subset_adata adata subset = some (amut, res) ∧
      res.X = maskFilter (specKeepMask adata subset) adata.X ∧
      res.n_vars = adata.n_vars ∧
      alookup res.obs "adata_subset_combined" = none := by
  refine ⟨fun _ => rfl, ?_⟩
  have hkC : ∀ k ∈ subset, k ≠ "adata_subset_combined" := by
    intro k hk he
    exact hres (he ▸ hk)
  have hlens : ∀ k ∈ subset,
      ((alookup adata.obs k).getD []).length = adata.n_obs := by
    intro k hk
    rcases hcols k hk with ⟨col, hcol, hlen, _⟩
    simp [hcol, hlen]
  have hguard : (subset.all fun k => (alookup adata.obs k).isSome) = true := by
    rw [List.all_eq_true]
    intro k hk
    rcases hcols k hk with ⟨col, hcol, _, _⟩
    simp [hcol]
  have hcomb := subset_combined_value adata subset hkC hlens
  have hunf : subset_adata adata subset = some (subset_adata_core adata subset) := by
    unfold subset_adata
    rw [if_pos hguard]
  refine ⟨(subset_adata_core adata subset).1, (subset_adata_core adata subset).2,
    hunf, ?_, rfl, ?_⟩
  · show maskFilter (((alookup (subsetLoop
        (aset adata.obs "adata_subset_combined"
          (List.replicate adata.n_obs (OVal.num 0))) subset)
        "adata_subset_combined").getD []).map (fun v => v == OVal.num 1)) adata.X
      = maskFilter (specKeepMask adata subset) adata.X
    rw [hcomb]
    show maskFilter ((specCombined adata subset).map (fun v => v == OVal.num 1))
      adata.X = maskFilter (specKeepMask adata subset) adata.X
    rw [specCombined_mask]
  · exact alookup_adrop_self _ _

theorem C3_subset_adata_union_witness :
    ((["keep"] : List String) ≠ []) ∧
    ("adata_subset_combined" ∉ (["keep"] : List String)) ∧
      ((∀ name : String,
          subset_adata_str (AnnData.mk [[1], [2]]
            [("keep", [OVal.num 1, OVal.num 0])] [] [] ["g"]) name
          = subset_adata (AnnData.mk [[1], [2]]
              [("keep", [OVal.num 1, OVal.num 0])] [] [] ["g"]) [name]) ∧
        ∃ amut res : AnnData,
          subset_adata (AnnData.mk [[1], [2]]
              [("keep", [OVal.num 1, OVal.num 0])] [] [] ["g"]) ["keep"]
            = some (amut, res) ∧
          res.X = maskFilter
            (specKeepMask (AnnData.mk [[1], [2]]
              [("keep", [OVal.num 1, OVal.num 0])] [] [] ["g"]) ["keep"])
            [[1], [2]] ∧
          res.n_vars = (AnnData.mk [[1], [2]]
            [("keep", [OVal.num 1, OVal.num 0])] [] [] ["g"]).n_vars ∧
          alookup res.obs "adata_subset_combined" = none) :=
  ⟨by decide, by decide,
    C3_subset_adata_union
      (AnnData.mk [[1], [2]] [("keep", [OVal.num 1, OVal.num 0])] [] [] ["g"])
      ["keep"] (by decide) (by decide)
      (by
        intro k hk
        rw [List.mem_singleton.mp hk]
        exact ⟨[OVal.num 1, OVal.num 0], rfl, rfl, by decide⟩)⟩

/-- C10: `subset_adata` mutates its input: after the call the original object
carries the `adata_subset_combined` column (1 for cells matching at least one
listed label, 0 otherwise) while being otherwise unchanged — dropping that
column restores the original `.obs` exactly, and `.X`, `.layers`, `.uns`,
`.var_names` are untouched — whereas the returned copy does not contain the
column. -/
theorem C10_subset_adata_mutates_input (adata : AnnData) (subset : List String)
    (hfresh : alookup adata.obs "adata_subset_combined" = none)
    (hcols : ∀ k ∈ subset, ∃ col, alookup adata.obs k = some col ∧
      col.length = adata.n_obs) :
    ∃ amut res : AnnData, subset_adata adata subset = some (amut, res) ∧
      alookup amut.obs "adata_subset_combined" = some (specCombined adata subset) ∧
      adrop amut.obs "adata_subset_combined" = adata.obs ∧
      amut.X = adata.X ∧ amut.layers = adata.layers ∧ amut.uns = adata.uns ∧
      amut.var_names = adata.var_names ∧
      alookup res.obs "adata_subset_combined" = none := by
  have hkC : ∀ k ∈ subset, k ≠ "adata_subset_combined" := by
    intro k hk he
    rcases hcols k hk with ⟨col, hcol, _⟩
    rw [he, hfresh] at hcol
    exact Option.noConfusion hcol
  have hlens : ∀ k ∈ subset,
      ((alookup adata.obs k).getD []).length = adata.n_obs := by
    intro k hk
    rcases hcols k hk with ⟨col, hcol, hlen⟩
    simp [hcol, hlen]
  have hguard : (subset.all fun k => (alookup adata.obs k).isSome) = true := by
    rw [List.all_eq_true]
    intro k hk
    rcases hcols k hk with ⟨col, hcol, _⟩
    simp [hcol]
  have hcomb := subset_combined_value adata subset hkC hlens
  have hunf : subset_adata adata subset = some (subset_adata_core adata subset) := by
    unfold subset_adata
    rw [if_pos hguard]
  refine ⟨(subset_adata_core adata subset).1, (subset_adata_core adata subset).2,
    hunf, hcomb, ?_, rfl, rfl, rfl, rfl, alookup_adrop_self _ _⟩
  show adrop (subsetLoop
      (aset adata.obs "adata_subset_combined"
        (List.replicate adata.n_obs (OVal.num 0))) subset)
    "adata_subset_combined" = adata.obs
  rw [adrop_subsetLoop, adrop_aset, adrop_of_none adata.obs _ hfresh]

theorem C10_subset_adata_mutates_input_witness :
    alookup ([("keep", [OVal.num 0, OVal.num 1])] : Obs)
        "adata_subset_combined" = none ∧
      ∃ amut res : AnnData,
        subset_adata (AnnData.mk [[1], [2]]
            [("keep", [OVal.num 0, OVal.num 1])] [] [] ["g"]) ["keep"]
          = some (amut, res) ∧
        alookup amut.obs "adata_subset_combined"
          = some (specCombined (AnnData.mk [[1], [2]]
              [("keep", [OVal.num 0, OVal.num 1])] [] [] ["g"]) ["keep"]) ∧
        adrop amut.obs "adata_subset_combined"
          = [("keep", [OVal.num 0, OVal.num 1])] ∧
        amut.X = [[1], [2]] ∧ amut.layers = [] ∧ amut.uns = [] ∧
        amut.var_names = ["g"] ∧
        alookup res.obs "adata_subset_combined" = none :=
  ⟨by decide,
    C10_subset_adata_mutates_input
      (AnnData.mk [[1], [2]] [("keep", [OVal.num 0, OVal.num 1])] [] [] ["g"])
      ["keep"] (by decide)
      (by
        intro k hk
        rw [List.mem_singleton.mp hk]
        exact ⟨[OVal.num 0, OVal.num 1], rfl, rfl⟩)⟩

/-! `cc_score` (C5, C9). -/

theorem ccGenes_eq_none (var_names : List String)
    (hng : ∀ g ∈ s_genes_h ++ g2m_genes_h ++ s_genes_m ++ g2m_genes_m,
      g ∉ var_names) : ccGenes var_names = none := by
  have hng2 : ∀ g, (g ∈ s_genes_h ∨ g ∈ g2m_genes_h ∨ g ∈ s_genes_m ∨
      g ∈ g2m_genes_m) → g ∉ var_names := by
    intro g hgor
    apply hng
    simp only [List.mem_append]
    tauto
  unfold ccGenes
  rw [if_neg, if_neg]
  · intro hcon
    rcases List.any_eq_true.mp hcon with ⟨g, hgmem, hgdec⟩
    refine hng2 g ?_ (of_decide_eq_true hgdec)
    simp only [List.mem_append] at hgmem
    tauto
  · intro hcon
    rcases List.any_eq_true.mp hcon with ⟨g, hgmem, hgdec⟩
    refine hng2 g ?_ (of_decide_eq_true hgdec)
    simp only [List.mem_append] at hgmem
    tauto

/-- C5: on a normal return with a `layer` key present in `.layers`, `cc_score`
only adds bookkeeping around the delegated scoring call: `.X` is restored to
its value before the call, the temporary `temp` layer has been removed, and
the only additions are the `S_score`/`G2M_score`/`phase` annotations the
external call wrote into `.obs`; `.uns` and `.var_names` are untouched. Holds
for every behaviour `scc` of the external scoring call. -/
theorem C5_cc_score_frame (scc : AnnData → List String → List String → ℤ → CCScores)
    (adata : AnnData) (l : String) (seed : ℤ)
    (hl : (alookup adata.layers l).isSome)
    (hg : (ccGenes adata.var_names).isSome) :
    ∃ a2 : AnnData, cc_score scc adata (some l) seed = .ok a2 ∧
      a2.X = adata.X ∧
      alookup a2.layers "temp" = none ∧
      a2.layers = adrop adata.layers "temp" ∧
      (∃ s : CCScores,
        a2.obs = aset (aset (aset adata.obs "S_score" s.s_score)
          "G2M_score" s.g2m_score) "phase" s.phase) ∧
      a2.uns = adata.uns ∧ a2.var_names = adata.var_names := by
  obtain ⟨L2, hL2⟩ : ∃ L2,
      alookup (aset adata.layers "temp" adata.X) l = some L2 := by
    by_cases hlt : l = "temp"
    · subst hlt
      exact ⟨adata.X, alookup_aset_self _ _ _⟩
    · rcases Option.isSome_iff_exists.mp hl with ⟨L, hL⟩
      exact ⟨L, by rw [alookup_aset_ne _ _ _ _ (fun he => hlt he.symm)]; exact hL⟩
  obtain ⟨sg, hsg⟩ := Option.isSome_iff_exists.mp hg
  refine ⟨{ applyScores
      { adata with layers := aset adata.layers "temp" adata.X, X := L2 }
      (scc { adata with layers := aset adata.layers "temp" adata.X, X := L2 }
        sg.1 sg.2 seed) with
    X := adata.X,
    layers := adrop (aset adata.layers "temp" adata.X) "temp" }, ?_, rfl,
    alookup_adrop_self _ _, adrop_aset _ _ _,
    ⟨scc { adata with layers := aset adata.layers "temp" adata.X, X := L2 }
      sg.1 sg.2 seed, rfl⟩, rfl, rfl⟩
  simp only [cc_score, hL2, hsg, applyScores, alookup_aset_self]

theorem C5_cc_score_frame_witness :
    (alookup ([("lay", [[2]])] : Layers) "lay").isSome = true ∧
      (ccGenes ["MCM5"]).isSome = true ∧
      ∃ a2 : AnnData,
        cc_score
            (fun _ _ _ _ =>
              CCScores.mk [OVal.num 0] [OVal.num 0] [OVal.str "G1"])
            (AnnData.mk [[1]] [] [("lay", [[2]])] [] ["MCM5"]) (some "lay") 0
          = .ok a2 ∧
        a2.X = [[1]] ∧
        alookup a2.layers "temp" = none ∧
        a2.layers = adrop ([("lay", [[2]])] : Layers) "temp" ∧
        (∃ s : CCScores,
          a2.obs = aset (aset (aset ([] : Obs) "S_score" s.s_score)
            "G2M_score" s.g2m_score) "phase" s.phase) ∧
        a2.uns = [] ∧ a2.var_names = ["MCM5"] :=
  ⟨by decide, by decide,
    C5_cc_score_frame
      (fun _ _ _ _ => CCScores.mk [OVal.num 0] [OVal.num 0] [OVal.str "G1"])
      (AnnData.mk [[1]] [] [("lay", [[2]])] [] ["MCM5"]) "lay" 0
      (by decide) (by decide)⟩

/-- C9: when `.var_names` contains none of the human or mouse cell-cycle
genes, `cc_score` raises (the species branch assigns no gene lists, so the
scoring call's arguments are unbound); with `layer = none` the state at the
raise is the unmodified object, and with a present non-`temp` layer the state
at the raise has `.X` already overwritten with the layer's contents and the
`temp` layer still in place — the object is not restored on this error
path. -/
theorem C9_cc_score_unassigned_genes
    (scc : AnnData → List String → List String → ℤ → CCScores)
    (adata : AnnData) (seed : ℤ)
    (hng : ∀ g ∈ s_genes_h ++ g2m_genes_h ++ s_genes_m ++ g2m_genes_m,
      g ∉ adata.var_names) :
    cc_score scc adata none seed = .error adata ∧
    ∀ l L, l ≠ "temp" → alookup adata.layers l = some L →
      ∃ a2 : AnnData, cc_score scc adata (some l) seed = .error a2 ∧
        a2.X = L ∧
        alookup a2.layers "temp" = some adata.X ∧
        a2.obs = adata.obs ∧ a2.uns = adata.uns := by
  have hge : ccGenes adata.var_names = none := ccGenes_eq_none adata.var_names hng
  constructor
  · simp only [cc_score, hge]
  · intro l L hlt hL
    have hL2 : alookup (aset adata.layers "temp" adata.X) l = some L := by
      rw [alookup_aset_ne _ _ _ _ (fun he => hlt he.symm)]
      exact hL
    refine ⟨{ adata with layers := aset adata.layers "temp" adata.X, X := L },
      ?_, rfl, alookup_aset_self _ _ _, rfl, rfl⟩
    simp only [cc_score, hL2, hge]

set_option maxRecDepth 4000 in
theorem C9_cc_score_unassigned_genes_witness :
    (∀ g ∈ s_genes_h ++ g2m_genes_h ++ s_genes_m ++ g2m_genes_m,
      g ∉ (["foo"] : List String)) ∧
      cc_score (fun _ _ _ _ => CCScores.mk [] [] [])
          (AnnData.mk [[1]] [] [("lay", [[2]])] [] ["foo"]) none 0
        = .error (AnnData.mk [[1]] [] [("lay", [[2]])] [] ["foo"]) ∧
      ∃ a2 : AnnData,
        cc_score (fun _ _ _ _ => CCScores.mk [] [] [])
            (AnnData.mk [[1]] [] [("lay", [[2]])] [] ["foo"]) (some "lay") 0
          = .error a2 ∧
        a2.X = [[2]] ∧
        alookup a2.layers "temp" = some [[1]] ∧
        a2.obs = [] ∧ a2.uns = [] :=
  ⟨by decide,
    (C9_cc_score_unassigned_genes (fun _ _ _ _ => CCScores.mk [] [] [])
      (AnnData.mk [[1]] [] [("lay", [[2]])] [] ["foo"]) 0 (by decide)).1,
    (C9_cc_score_unassigned_genes (fun _ _ _ _ => CCScores.mk [] [] [])
      (AnnData.mk [[1]] [] [("lay", [[2]])] [] ["foo"]) 0 (by decide)).2
      "lay" [[2]] (by decide) (by decide)⟩

/-! `dim_reduce` (C4). -/

/-- C4 counterexample: the claim says every delegated call is passed
`random_state = seed`, but the `sc.tl.paga` (and `sc.pl.paga`) calls of
`dim_reduce` are passed no `random_state` at all — here at
`n_obs = 100, use_rep = None, clust_resolution = 1, seed = 18`. -/
theorem C4_dim_reduce_counterexample :
    ¬ ∀ c ∈ dim_reduce 100 none 1 18, callSeed c = some 18 := by
  decide

/-- C4 (amended): `dim_reduce` delegates in a fixed order — with
`use_rep = None`: PCA with 50 components, then a kNN graph with
`int(sqrt(n_obs))` neighbors on 20 principal components, then Leiden at
`clust_resolution`, then PAGA (`sc.tl.paga` and the position-computing
`sc.pl.paga`), then UMAP initialized from the PAGA positions; with `use_rep`
given, the PCA step is skipped and the graph is built from that
representation with `n_pcs = 0`, followed by the same sequence. Every call
that accepts a `random_state` (PCA, neighbors, Leiden, UMAP) is passed
`random_state = seed`; the PAGA calls accept none. -/
theorem C4_dim_reduce_order (n_obs : ℕ) (use_rep : Option String)
    (clust_resolution : ℚ) (seed : ℤ) :
    (use_rep = none → dim_reduce n_obs none clust_resolution seed =
      [ScCall.pp_pca 50 seed,
       ScCall.pp_neighbors (Nat.sqrt n_obs) 20 none seed,
       ScCall.tl_leiden clust_resolution seed,
       ScCall.tl_paga, ScCall.pl_paga,
       ScCall.tl_umap "paga" seed]) ∧
    (∀ rep, use_rep = some rep →
      dim_reduce n_obs (some rep) clust_resolution seed =
      [ScCall.pp_neighbors (Nat.sqrt n_obs) 0 (some rep) seed,
       ScCall.tl_leiden clust_resolution seed,
       ScCall.tl_paga, ScCall.pl_paga,
       ScCall.tl_umap "paga" seed]) ∧
    (∀ c ∈ dim_reduce n_obs use_rep clust_resolution seed,
      c ≠ ScCall.tl_paga → c ≠ ScCall.pl_paga → callSeed c = some seed) := by
  refine ⟨fun _ => rfl, fun rep _ => rfl, ?_⟩
  cases use_rep with
  | none =>
    intro c hc h1 h2
    simp only [dim_reduce, List.mem_cons, List.not_mem_nil, or_false] at hc
    rcases hc with rfl | rfl | rfl | rfl | rfl | rfl
    · rfl
    · rfl
    · rfl
    · exact absurd rfl h1
    · exact absurd rfl h2
    · rfl
  | some rep =>
    intro c hc h1 h2
    simp only [dim_reduce, List.mem_cons, List.not_mem_nil, or_false] at hc
    rcases hc with rfl | rfl | rfl | rfl | rfl
    · rfl
    · rfl
    · exact absurd rfl h1
    · exact absurd rfl h2
    · rfl

theorem C4_dim_reduce_order_witness :
    dim_reduce 100 none 1 18 =
      [ScCall.pp_pca 50 18,
       ScCall.pp_neighbors (Nat.sqrt 100) 20 none 18,
       ScCall.tl_leiden 1 18,
       ScCall.tl_paga, ScCall.pl_paga,
       ScCall.tl_umap "paga" 18] ∧
    callSeed (ScCall.pp_pca 50 18) = some 18 :=
  ⟨(C4_dim_reduce_order 100 none 1 18).1 rfl,
    (C4_dim_reduce_order 100 none 1 18).2.2 (ScCall.pp_pca 50 18)
      (by simp [dim_reduce]) (by simp) (by simp)⟩

/-- C2: `check_dir_exists` suppresses exactly the `EEXIST` error of the
`os.makedirs` attempt, re-raises every other errno, and in particular returns
normally on every path that already names an existing directory. -/
theorem C2_check_dir_exists (mk : FS → String → Except ℕ FS) (fs : FS) (path : String) :
    (mk fs path = .error EEXIST → check_dir_exists mk fs path = .ok fs) ∧
    (∀ e : ℕ, mk fs path = .error e → e ≠ EEXIST →
      check_dir_exists mk fs path = .error e) ∧
    (path ∈ fs.dirs → check_dir_exists makedirsFS fs path = .ok fs) := by
  refine ⟨fun he => ?_, fun e he hne => ?_, fun hmem => ?_⟩
  · simp [check_dir_exists, he]
  · simp [check_dir_exists, he, hne]
  · simp [check_dir_exists, makedirsFS, hmem]

theorem C2_check_dir_exists_witness :
    "out" ∈ (FS.mk ["out"]).dirs ∧
      check_dir_exists makedirsFS (FS.mk ["out"]) "out" = .ok (FS.mk ["out"]) :=
  ⟨by decide, (C2_check_dir_exists makedirsFS (FS.mk ["out"]) "out").2.2 (by decide)⟩

end Kitchen
